import Mathlib

/-!
Verification of the To-Do application's authorization and task-store core.

The repository ships the frontend authentication configuration
(`src/frontend/lib/auth.ts`, `src/frontend/better-auth.config.ts`, and the
auth client module) in source form; the FastAPI backend implementing the
task store, the authorization guard and the request handlers is described
by the specification but its source is not included, so those components
are modelled here directly from the specification's contracts (sections
3, 4, 6, 7 and 8 of the spec).
-/

namespace Todo

/-- Modelled from the spec: the Task entity of section 3 (the backend source
defining it is absent from the repository). Timestamps are abstracted as
naturals; `id` is the store-assigned unique identifier. -/
structure Task where
  id : Nat
  owner_id : String
  title : String
  description : Option String
  is_completed : Bool
  created_at : Nat
  updated_at : Nat
  deriving Repr, DecidableEq

/-- Modelled from the spec: the error taxonomy of section 7 (Unauthorized 401,
Forbidden 403, NotFound 404, ValidationError 400). -/
inductive ApiError where
  | Unauthorized
  | Forbidden
  | NotFound
  | ValidationError
  deriving Repr, DecidableEq

/-- Modelled from the spec: the persistent task store, the sole shared
resource. `nextId` is the fresh-id source backing the `id is never reused`
invariant. -/
structure Store where
  tasks : List Task
  nextId : Nat
  deriving Repr, DecidableEq

def Store.empty : Store := { tasks := [], nextId := 0 }

/-- Modelled from the spec: the configured maximum title length (the spec
leaves the bound a configuration parameter; a concrete value is fixed for the
model). -/
def titleMaxLen : Nat := 200

/-- Modelled from the spec: a create request body `\x7btitle, description?\x7d`.
The `body_owner_id` field stands for any owner id a client might smuggle into
the body; the spec requires it to be ignored (owner comes from the token). -/
structure CreateBody where
  title : String
  description : Option String := none
  body_owner_id : Option String := none
  deriving Repr, DecidableEq

/-- Modelled from the spec: the partial-update body
`\x7btitle?, description?, is_completed?\x7d`; `none` marks an absent field. -/
structure UpdateFields where
  title : Option String := none
  description : Option String := none
  is_completed : Option Bool := none
  deriving Repr, DecidableEq

/-- Modelled from the spec: owner-scoped row lookup; every read and write
filters by both the task id and the owner id, which is what makes
absent-vs-foreign indistinguishable. -/
def Store.findTask (s : Store) (owner : String) (id : Nat) : Option Task :=
  s.tasks.find? fun t => t.id == id && t.owner_id == owner

/-- Modelled from the spec: `list(owner_id)`, an owner-filtered listing in
creation order (oldest first, the fixed order chosen for the model). -/
def Store.list (s : Store) (owner : String) : List Task :=
  s.tasks.filter fun t => t.owner_id == owner

/-- Modelled from the spec: validity of a create title — non-empty and within
the configured maximum length. -/
def validTitle (title : String) : Bool :=
  !title.isEmpty && title.length ≤ titleMaxLen

/-- Modelled from the spec: `create(owner_id, title, description?)`; fails
with ValidationError on a bad title, otherwise assigns the fresh id, sets both
timestamps to the current time, sets `is_completed := false`, and takes the
owner from the verified token argument, ignoring `body_owner_id`. -/
def Store.create (s : Store) (owner : String) (body : CreateBody) (now : Nat) :
    Except ApiError (Task × Store) :=
  if validTitle body.title then
    let t : Task :=
      { id := s.nextId, owner_id := owner, title := body.title,
        description := body.description, is_completed := false,
        created_at := now, updated_at := now }
    Except.ok (t, { tasks := s.tasks ++ [t], nextId := s.nextId + 1 })
  else
    Except.error ApiError.ValidationError

/-- Modelled from the spec: `get(owner_id, id)`; NotFound both when the id is
absent and when it belongs to a different owner. -/
def Store.get (s : Store) (owner : String) (id : Nat) : Except ApiError Task :=
  match s.findTask owner id with
  | some t => Except.ok t
  | none => Except.error ApiError.NotFound

/-- Modelled from the spec: application of a partial update to a row — only
supplied fields change, `updated_at` refreshes. -/
def applyFields (t : Task) (f : UpdateFields) (now : Nat) : Task :=
  { t with
    title := f.title.getD t.title,
    description := match f.description with
      | some d => some d
      | none => t.description,
    is_completed := f.is_completed.getD t.is_completed,
    updated_at := now }

/-- Modelled from the spec: `update(owner_id, id, fields)`; owner-scoped
lookup, partial-update semantics, NotFound otherwise. -/
def Store.update (s : Store) (owner : String) (id : Nat) (f : UpdateFields)
    (now : Nat) : Except ApiError (Task × Store) :=
  match s.findTask owner id with
  | some t =>
    let t' := applyFields t f now
    Except.ok (t', { s with
      tasks := s.tasks.map fun u =>
        if u.id == id && u.owner_id == owner then t' else u })
  | none => Except.error ApiError.NotFound

/-- Modelled from the spec: `delete(owner_id, id)`; hard delete of the
owner-scoped row, NotFound otherwise. -/
def Store.delete (s : Store) (owner : String) (id : Nat) :
    Except ApiError Store :=
  match s.findTask owner id with
  | some _ =>
    Except.ok { s with
      tasks := s.tasks.filter fun u => !(u.id == id && u.owner_id == owner) }
  | none => Except.error ApiError.NotFound

/-- Modelled from the spec: `toggleComplete(owner_id, id)`; flips
`is_completed` and refreshes `updated_at` on the owner-scoped row. -/
def Store.toggleComplete (s : Store) (owner : String) (id : Nat) (now : Nat) :
    Except ApiError (Task × Store) :=
  match s.findTask owner id with
  | some t =>
    let t' := { t with is_completed := !t.is_completed, updated_at := now }
    Except.ok (t', { s with
      tasks := s.tasks.map fun u =>
        if u.id == id && u.owner_id == owner then t' else u })
  | none => Except.error ApiError.NotFound

/-- Modelled from the spec: the bearer-token outcomes a handler can see —
no token, a token that fails verification, or a verified token carrying its
subject claim. -/
inductive Token where
  | missing
  | invalid
  | valid (subject : String)
  deriving Repr, DecidableEq

/-- Modelled from the spec: the Token Verifier contract of section 4.1,
abstracted over the cryptographic details — a missing or unverifiable token
is Unauthorized, a verified one yields its subject claim. -/
def verify : Token → Except ApiError String
  | Token.valid s => Except.ok s
  | Token.missing => Except.error ApiError.Unauthorized
  | Token.invalid => Except.error ApiError.Unauthorized

/-- Modelled from the spec: the Authorization Guard of section 4.2 — allow
iff the verified subject and the path owner id are exactly equal as strings,
Forbidden otherwise. -/
def authorize (subject pathOwner : String) : Except ApiError Unit :=
  if subject = pathOwner then Except.ok () else Except.error ApiError.Forbidden

/-- Modelled from the spec: the per-request pipeline of section 4.4 —
Verify, then Guard against the path owner, then the store operation scoped by
the verified subject. -/
def handle (tok : Token) (pathOwner : String)
    (op : String → Except ApiError α) : Except ApiError α :=
  match verify tok with
  | Except.error e => Except.error e
  | Except.ok subj =>
    match authorize subj pathOwner with
    | Except.error e => Except.error e
    | Except.ok _ => op subj

/-- Modelled from the spec: the GET single-task handler. -/
def handleGet (tok : Token) (pathOwner : String) (id : Nat) (s : Store) :
    Except ApiError Task :=
  handle tok pathOwner fun subj => s.get subj id

/-- Modelled from the spec: the GET list handler. -/
def handleList (tok : Token) (pathOwner : String) (s : Store) :
    Except ApiError (List Task) :=
  handle tok pathOwner fun subj => Except.ok (s.list subj)

/-- Modelled from the spec: the POST create handler; the owner passed to the
store is the verified subject, never anything from the body. -/
def handleCreate (tok : Token) (pathOwner : String) (body : CreateBody)
    (now : Nat) (s : Store) : Except ApiError (Task × Store) :=
  handle tok pathOwner fun subj => s.create subj body now

/-- Modelled from the spec: the PUT update handler. -/
def handleUpdate (tok : Token) (pathOwner : String) (id : Nat)
    (f : UpdateFields) (now : Nat) (s : Store) :
    Except ApiError (Task × Store) :=
  handle tok pathOwner fun subj => s.update subj id f now

/-- Modelled from the spec: the DELETE handler. -/
def handleDelete (tok : Token) (pathOwner : String) (id : Nat) (s : Store) :
    Except ApiError Store :=
  handle tok pathOwner fun subj => s.delete subj id

/-- Modelled from the spec: the PATCH toggle-complete handler. -/
def handleToggle (tok : Token) (pathOwner : String) (id : Nat) (now : Nat)
    (s : Store) : Except ApiError (Task × Store) :=
  handle tok pathOwner fun subj => s.toggleComplete subj id now

/-- Modelled from the spec: one store-touching request, used to describe the
reachable states of the store. -/
inductive Req where
  | create (body : CreateBody)
  | update (id : Nat) (f : UpdateFields)
  | del (id : Nat)
  | toggle (id : Nat)

/-- Modelled from the spec: the store state after a request is executed
against it; a failing request leaves the store unchanged. -/
def Store.applyReq (s : Store) (owner : String) (r : Req) (now : Nat) :
    Store :=
  match r with
  | Req.create body =>
    match s.create owner body now with
    | Except.ok (_, s') => s'
    | Except.error _ => s
  | Req.update id f =>
    match s.update owner id f now with
    | Except.ok (_, s') => s'
    | Except.error _ => s
  | Req.del id =>
    match s.delete owner id with
    | Except.ok s' => s'
    | Except.error _ => s
  | Req.toggle id =>
    match s.toggleComplete owner id now with
    | Except.ok (_, s') => s'
    | Except.error _ => s

/-- Modelled from the spec: the store states reachable from the empty store
by executing requests at non-decreasing wall-clock times; `tm` is the time of
the latest executed request. -/
inductive Reachable : Store → Nat → Prop where
  | init : Reachable Store.empty 0
  | step {s : Store} {tm now : Nat} (owner : String) (r : Req) :
      Reachable s tm → tm ≤ now → Reachable (s.applyReq owner r now) now

/-- A concrete task owned by user `A`, for concrete instantiations. -/
def taskA : Task :=
  { id := 0, owner_id := "A", title := "Buy milk", description := none,
    is_completed := false, created_at := 1, updated_at := 1 }

/-- A concrete store holding exactly `taskA`. -/
def storeA : Store := { tasks := [taskA], nextId := 1 }

/-- The task `taskA` after a title-only update to `"x"` at time 7. -/
def taskAUpdated : Task :=
  { id := 0, owner_id := "A", title := "x", description := none,
    is_completed := false, created_at := 1, updated_at := 7 }

/-- The store `storeA` after that title-only update. -/
def storeAUpdated : Store := { tasks := [taskAUpdated], nextId := 1 }

/-- The task `taskA` after one toggle at time 2. -/
def taskAToggled : Task :=
  { id := 0, owner_id := "A", title := "Buy milk", description := none,
    is_completed := true, created_at := 1, updated_at := 2 }

/-- The store `storeA` after that toggle. -/
def storeAToggled : Store := { tasks := [taskAToggled], nextId := 1 }

/-- The task `taskA` after a second toggle at time 3. -/
def taskAToggled2 : Task :=
  { id := 0, owner_id := "A", title := "Buy milk", description := none,
    is_completed := false, created_at := 1, updated_at := 3 }

/-- The store `storeA` after the second toggle. -/
def storeAToggled2 : Store := { tasks := [taskAToggled2], nextId := 1 }

/-- A task created for user `B` into `storeA` at time 5, receiving fresh
id 1. -/
def taskB : Task :=
  { id := 1, owner_id := "B", title := "x", description := none,
    is_completed := false, created_at := 5, updated_at := 5 }

/-- The store `storeA` after that create for `B`. -/
def storeAB : Store := { tasks := [taskA, taskB], nextId := 2 }

/-- Invariant of a store at time `tm`: every task was updated no earlier than
it was created and no later than `tm`, and every task id is below the fresh-id
counter. -/
def StoreInv (s : Store) (tm : Nat) : Prop :=
  (∀ t ∈ s.tasks, t.created_at ≤ t.updated_at ∧ t.updated_at ≤ tm) ∧
  ∀ t ∈ s.tasks, t.id < s.nextId

end Todo

namespace Frontend

/-- JavaScript string-or-undefined values, as they occur in the environment
lookups of the frontend configuration files. -/
inductive JsVal where
  | undef
  | str (s : String)
  deriving Repr, DecidableEq

/-- JavaScript truthiness restricted to these values: `undefined` and the
empty string are falsy, every other string is truthy. -/
def truthy : JsVal → Bool
  | JsVal.undef => false
  | JsVal.str s => !s.isEmpty

/-- JavaScript `a || b` on these values: returns `a` when truthy, else `b`. -/
def jsOr (a b : JsVal) : JsVal :=
  if truthy a then a else b

/-- Embeds the `baseURL` expression of the auth client module
(`createAuthClient(\x7b baseURL: process.env.NEXT_PUBLIC_APP_URL ||
"http://localhost:3000" || 'https://to-do-app-phase-2.vercel.app' \x7d)`),
with `env` standing for `process.env.NEXT_PUBLIC_APP_URL`. JavaScript `||`
associates to the left. -/
def authClientBaseURL (env : JsVal) : JsVal :=
  jsOr (jsOr env (JsVal.str "http://localhost:3000"))
    (JsVal.str "https://to-do-app-phase-2.vercel.app")

/-- JavaScript `s.includes(pat)` on strings: substring containment. -/
def jsIncludes (s pat : String) : Bool := decide (pat.toList <:+: s.toList)

/-- The `ssl` field of a `pg` Pool configuration as used in this repository:
either disabled, or TLS with an explicit `rejectUnauthorized` flag. -/
inductive SslMode where
  | off
  | tls (rejectUnauthorized : Bool)
  deriving Repr, DecidableEq

/-- Embeds the `ssl` expression of the Pool in `src/frontend/lib/auth.ts`:
`process.env.DATABASE_URL?.includes('neon.tech') ? \x7b rejectUnauthorized:
false \x7d : false`, with `dbUrl` standing for `process.env.DATABASE_URL`;
optional chaining on `undefined` yields `undefined`, which is falsy. -/
def authPoolSsl (dbUrl : Option String) : SslMode :=
  match dbUrl with
  | some u =>
    if jsIncludes u "neon.tech" then SslMode.tls false else SslMode.off
  | none => SslMode.off

/-- Embeds the `ssl` expression of the Pool in
`src/frontend/better-auth.config.ts`, textually identical to the one in
`src/frontend/lib/auth.ts`. -/
def betterAuthPoolSsl (dbUrl : Option String) : SslMode :=
  match dbUrl with
  | some u =>
    if jsIncludes u "neon.tech" then SslMode.tls false else SslMode.off
  | none => SslMode.off

end Frontend

namespace Todo

lemma verify_valid (subj : String) : verify (Token.valid subj) = Except.ok subj := rfl

lemma handle_valid (pathOwner : String) (subj : String)
    (op : String → Except ApiError α) :
    handle (Token.valid subj) pathOwner op =
      if subj = pathOwner then op subj else Except.error ApiError.Forbidden := by
  by_cases h : subj = pathOwner <;>
    simp [handle, verify, authorize, h, Except.bind]

lemma handle_missing (pathOwner : String) (op : String → Except ApiError α) :
    handle Token.missing pathOwner op = Except.error ApiError.Unauthorized := rfl

lemma handle_invalid (pathOwner : String) (op : String → Except ApiError α) :
    handle Token.invalid pathOwner op = Except.error ApiError.Unauthorized := rfl

/-- C2: the Guard allows exactly when the verified subject and the path owner
id are equal as strings and fails with Forbidden otherwise; every handler,
given a valid token whose subject differs from the path owner, returns
Forbidden without consulting the store (the result is Forbidden for every
store state); a missing or invalid token makes every handler return
Unauthorized, never Forbidden. -/
theorem C2_guard_precedence :
    (∀ subj owner : String,
      (authorize subj owner = Except.ok () ↔ subj = owner) ∧
      (authorize subj owner = Except.error ApiError.Forbidden ↔ subj ≠ owner)) ∧
    (∀ (subj owner : String) (id : Nat) (s : Store) (f : UpdateFields)
        (now : Nat) (body : CreateBody),
      (handleGet (Token.valid subj) owner id s =
        if subj = owner then s.get subj id
        else Except.error ApiError.Forbidden) ∧
      (handleList (Token.valid subj) owner s =
        if subj = owner then Except.ok (s.list subj)
        else Except.error ApiError.Forbidden) ∧
      (handleCreate (Token.valid subj) owner body now s =
        if subj = owner then s.create subj body now
        else Except.error ApiError.Forbidden) ∧
      (handleUpdate (Token.valid subj) owner id f now s =
        if subj = owner then s.update subj id f now
        else Except.error ApiError.Forbidden) ∧
      (handleDelete (Token.valid subj) owner id s =
        if subj = owner then s.delete subj id
        else Except.error ApiError.Forbidden) ∧
      (handleToggle (Token.valid subj) owner id now s =
        if subj = owner then s.toggleComplete subj id now
        else Except.error ApiError.Forbidden)) ∧
    (∀ (tok : Token), tok = Token.missing ∨ tok = Token.invalid →
      ∀ (owner : String) (id : Nat) (s : Store) (f : UpdateFields)
        (now : Nat) (body : CreateBody),
      handleGet tok owner id s = Except.error ApiError.Unauthorized ∧
      handleList tok owner s = Except.error ApiError.Unauthorized ∧
      handleCreate tok owner body now s = Except.error ApiError.Unauthorized ∧
      handleUpdate tok owner id f now s = Except.error ApiError.Unauthorized ∧
      handleDelete tok owner id s = Except.error ApiError.Unauthorized ∧
      handleToggle tok owner id now s = Except.error ApiError.Unauthorized) := by
  refine ⟨?_, ?_, ?_⟩
  · intro subj owner
    constructor
    · constructor
      · intro h
        by_contra hne
        simp [authorize, hne] at h
      · intro h
        simp [authorize, h]
    · constructor
      · intro h hne
        simp [authorize, hne] at h
      · intro h
        simp [authorize, h]
  · intro subj owner id s f now body
    refine ⟨?_, ?_, ?_, ?_, ?_, ?_⟩ <;>
      simp [handleGet, handleList, handleCreate, handleUpdate, handleDelete,
        handleToggle, handle_valid]
  · rintro tok (rfl | rfl) owner id s f now body <;>
      exact ⟨rfl, rfl, rfl, rfl, rfl, rfl⟩

/-- C2 witness: concrete instantiation — a valid token for subject `B`
against path owner `A` on the concrete store is Forbidden even though a task
exists there, and a missing token is Unauthorized. -/
theorem C2_guard_precedence_witness :
    handleGet (Token.valid "B") "A" 0 storeA =
      Except.error ApiError.Forbidden ∧
    handleGet Token.missing "A" 0 storeA =
      Except.error ApiError.Unauthorized := by
  constructor
  · have h := (C2_guard_precedence.2.1 "B" "A" 0 storeA {} 0 { title := "x" }).1
    rw [h]
    simp
  · exact (C2_guard_precedence.2.2 Token.missing (Or.inl rfl) "A" 0 storeA
      {} 0 { title := "x" }).1

end Todo

namespace Frontend

/-- C9: the auth client's `baseURL` equals `NEXT_PUBLIC_APP_URL` whenever that
variable is set and non-empty, and `"http://localhost:3000"` otherwise; the
whole three-operand `||` chain equals its first two operands, so the trailing
`'https://to-do-app-phase-2.vercel.app'` literal is never the selected
operand. -/
theorem C9_authClient_baseURL (env : JsVal) :
    authClientBaseURL env =
      (if truthy env then env else JsVal.str "http://localhost:3000") ∧
    authClientBaseURL env = jsOr env (JsVal.str "http://localhost:3000") := by
  have hloc : ("http://localhost:3000" : String).isEmpty = false := by decide
  cases env with
  | undef => exact ⟨by decide, by decide⟩
  | str s =>
    by_cases h : s.isEmpty
    · constructor <;>
        simp [authClientBaseURL, jsOr, truthy, h, hloc]
    · constructor <;>
        simp [authClientBaseURL, jsOr, truthy, h]

/-- C10: in both auth configurations the Pool's `ssl` option is
`\x7b rejectUnauthorized: false \x7d` exactly when `DATABASE_URL` is set and
contains the substring `neon.tech`, is `false` (TLS off) otherwise, and TLS
certificate verification (`rejectUnauthorized: true`) is never enabled. -/
theorem C10_pool_ssl (dbUrl : Option String) :
    authPoolSsl dbUrl = betterAuthPoolSsl dbUrl ∧
    (authPoolSsl dbUrl = SslMode.tls false ↔
      ∃ u, dbUrl = some u ∧ jsIncludes u "neon.tech" = true) ∧
    (authPoolSsl dbUrl = SslMode.off ↔
      ¬ ∃ u, dbUrl = some u ∧ jsIncludes u "neon.tech" = true) ∧
    authPoolSsl dbUrl ≠ SslMode.tls true := by
  cases dbUrl with
  | none =>
    refine ⟨rfl, ?_, ?_, by simp [authPoolSsl]⟩ <;>
      simp [authPoolSsl]
  | some u =>
    by_cases h : jsIncludes u "neon.tech" = true
    · refine ⟨rfl, ?_, ?_, ?_⟩ <;>
        simp [authPoolSsl, h]
    · refine ⟨rfl, ?_, ?_, ?_⟩ <;>
        simp [authPoolSsl, h]

end Frontend

namespace Todo

lemma findTask_eq_none {s : Store} {owner : String} {id : Nat}
    (h : ∀ t ∈ s.tasks, t.id = id → t.owner_id ≠ owner) :
    s.findTask owner id = none := by
  apply List.find?_eq_none.mpr
  intro t ht
  simp only [Bool.and_eq_true, beq_iff_eq, not_and]
  exact h t ht

lemma findTask_some {s : Store} {owner : String} {id : Nat} {t : Task}
    (h : s.findTask owner id = some t) :
    t ∈ s.tasks ∧ t.id = id ∧ t.owner_id = owner := by
  have hmem := List.mem_of_find?_eq_some h
  have hp := List.find?_some h
  simp only [Bool.and_eq_true, beq_iff_eq] at hp
  exact ⟨hmem, hp.1, hp.2⟩

/-- C3: the outcome of every single-task operation is the same
`NotFound` error whether the requested id is entirely absent from the store
(`s₁`) or present but owned by someone other than the caller (`s₂`); the
caller cannot distinguish the two situations. -/
theorem C3_notfound_indistinguishable (owner : String) (id : Nat)
    (s₁ s₂ : Store) (f : UpdateFields) (now : Nat)
    (h₁ : ∀ t ∈ s₁.tasks, t.id ≠ id)
    (h₂ : ∀ t ∈ s₂.tasks, t.id = id → t.owner_id ≠ owner) :
    s₁.get owner id = s₂.get owner id ∧
    s₁.get owner id = Except.error ApiError.NotFound ∧
    s₁.update owner id f now = s₂.update owner id f now ∧
    s₁.update owner id f now = Except.error ApiError.NotFound ∧
    s₁.delete owner id = s₂.delete owner id ∧
    s₁.delete owner id = Except.error ApiError.NotFound ∧
    s₁.toggleComplete owner id now = s₂.toggleComplete owner id now ∧
    s₁.toggleComplete owner id now = Except.error ApiError.NotFound := by
  have hf₁ : s₁.findTask owner id = none :=
    findTask_eq_none fun t ht hid => absurd hid (h₁ t ht)
  have hf₂ : s₂.findTask owner id = none := findTask_eq_none h₂
  refine ⟨?_, ?_, ?_, ?_, ?_, ?_, ?_, ?_⟩ <;>
    simp [Store.get, Store.update, Store.delete, Store.toggleComplete,
      hf₁, hf₂]

/-- C3 witness: user `B` requesting id 0 gets the same `NotFound` from the
empty store (id absent) and from the store where id 0 belongs to `A`. -/
theorem C3_witness :
    Store.empty.get "B" 0 = storeA.get "B" 0 ∧
    Store.empty.get "B" 0 = Except.error ApiError.NotFound ∧
    storeA.toggleComplete "B" 0 5 = Except.error ApiError.NotFound := by
  have h := C3_notfound_indistinguishable "B" 0 Store.empty storeA {} 5
    (by decide) (by decide)
  refine ⟨h.1, h.2.1, ?_⟩
  rw [← h.2.2.2.2.2.2.1]
  exact h.2.2.2.2.2.2.2

/-- C1 counterexample: the claim says a request authenticated as `B`
targeting `A`'s task id yields `NotFound` regardless of the path owner id,
but with path owner `A` the handler returns `Forbidden`, which differs from
`NotFound`. -/
theorem C1_claim_counterexample :
    handleGet (Token.valid "B") "A" 0 storeA =
      Except.error ApiError.Forbidden ∧
    (Except.error ApiError.Forbidden : Except ApiError Task) ≠
      Except.error ApiError.NotFound := by
  constructor
  · rfl
  · simp

/-- C1 amended: for owners `A ≠ B` and a task of `A` with a unique id, a
request authenticated as `B` targeting that id returns `NotFound` when the
path owner is `B` and `Forbidden` otherwise — in every case a pure error
carrying no field of the task — and `list` for `B` never contains the task
nor any task owned by `A`. -/
theorem C1_isolation_amended (A B pathOwner : String) (s : Store) (t : Task)
    (f : UpdateFields) (now : Nat)
    (hAB : A ≠ B) (ht : t ∈ s.tasks) (hown : t.owner_id = A)
    (huniq : ∀ u ∈ s.tasks, u.id = t.id → u = t) :
    handleGet (Token.valid B) pathOwner t.id s =
      Except.error
        (if pathOwner = B then ApiError.NotFound else ApiError.Forbidden) ∧
    handleUpdate (Token.valid B) pathOwner t.id f now s =
      Except.error
        (if pathOwner = B then ApiError.NotFound else ApiError.Forbidden) ∧
    handleDelete (Token.valid B) pathOwner t.id s =
      Except.error
        (if pathOwner = B then ApiError.NotFound else ApiError.Forbidden) ∧
    handleToggle (Token.valid B) pathOwner t.id now s =
      Except.error
        (if pathOwner = B then ApiError.NotFound else ApiError.Forbidden) ∧
    t ∉ s.list B ∧
    (∀ u ∈ s.list B, u.owner_id ≠ A) := by
  have hfind : s.findTask B t.id = none := by
    apply findTask_eq_none
    intro u hu hid
    rw [huniq u hu hid, hown]
    exact fun h => hAB h
  have hlist : ∀ u ∈ s.list B, u.owner_id = B := by
    intro u hu
    have := (List.mem_filter.mp hu).2
    simpa [beq_iff_eq] using this
  refine ⟨?_, ?_, ?_, ?_, ?_, ?_⟩
  · rw [handleGet, handle_valid]
    by_cases hpb : pathOwner = B
    · simp [hpb, Store.get, hfind]
    · have hbp : ¬B = pathOwner := fun h => hpb h.symm
      simp [hpb, hbp]
  · rw [handleUpdate, handle_valid]
    by_cases hpb : pathOwner = B
    · simp [hpb, Store.update, hfind]
    · have hbp : ¬B = pathOwner := fun h => hpb h.symm
      simp [hpb, hbp]
  · rw [handleDelete, handle_valid]
    by_cases hpb : pathOwner = B
    · simp [hpb, Store.delete, hfind]
    · have hbp : ¬B = pathOwner := fun h => hpb h.symm
      simp [hpb, hbp]
  · rw [handleToggle, handle_valid]
    by_cases hpb : pathOwner = B
    · simp [hpb, Store.toggleComplete, hfind]
    · have hbp : ¬B = pathOwner := fun h => hpb h.symm
      simp [hpb, hbp]
  · intro hmem
    exact hAB (hown ▸ hlist t hmem)
  · intro u hu h
    exact hAB (h ▸ hlist u hu)

/-- C1 witness: concrete instantiation with owners `A`, `B`, the store
holding `A`'s task, and path owner `B`: the request yields `NotFound` and
`B`'s listing is free of `A`'s task. -/
theorem C1_isolation_witness :
    handleGet (Token.valid "B") "B" taskA.id storeA =
      Except.error
        (if "B" = "B" then ApiError.NotFound else ApiError.Forbidden) ∧
    taskA ∉ storeA.list "B" := by
  have h := C1_isolation_amended "A" "B" "B" storeA taskA {} 5
    (by decide) (by decide) (by decide) (by decide)
  exact ⟨h.1, h.2.2.2.2.1⟩

end Todo

namespace Todo

lemma create_ok {s : Store} {owner : String} {body : CreateBody} {now : Nat}
    {t : Task} {s' : Store}
    (h : s.create owner body now = Except.ok (t, s')) :
    validTitle body.title = true ∧
    t = { id := s.nextId, owner_id := owner, title := body.title,
          description := body.description, is_completed := false,
          created_at := now, updated_at := now } ∧
    s'.tasks = s.tasks ++ [t] ∧ s'.nextId = s.nextId + 1 := by
  by_cases hv : validTitle body.title = true
  · rw [Store.create, if_pos hv] at h
    injection h with h1
    injection h1 with h2 h3
    subst h2
    subst h3
    exact ⟨hv, rfl, rfl, rfl⟩
  · rw [Store.create, if_neg hv] at h
    cases h

lemma update_ok {s : Store} {owner : String} {id : Nat} {f : UpdateFields}
    {now : Nat} {t' : Task} {s' : Store}
    (h : s.update owner id f now = Except.ok (t', s')) :
    ∃ t0, s.findTask owner id = some t0 ∧ t' = applyFields t0 f now ∧
      s'.tasks = s.tasks.map
        (fun u => if u.id == id && u.owner_id == owner then t' else u) ∧
      s'.nextId = s.nextId := by
  cases hfind : s.findTask owner id with
  | none =>
    rw [Store.update, hfind] at h
    cases h
  | some t0 =>
    rw [Store.update, hfind] at h
    injection h with h1
    injection h1 with h2 h3
    subst h2
    subst h3
    exact ⟨t0, rfl, rfl, rfl, rfl⟩

lemma toggle_ok {s : Store} {owner : String} {id : Nat} {now : Nat}
    {t' : Task} {s' : Store}
    (h : s.toggleComplete owner id now = Except.ok (t', s')) :
    ∃ t0, s.findTask owner id = some t0 ∧
      t' = { t0 with is_completed := !t0.is_completed, updated_at := now } ∧
      s'.tasks = s.tasks.map
        (fun u => if u.id == id && u.owner_id == owner then t' else u) ∧
      s'.nextId = s.nextId := by
  cases hfind : s.findTask owner id with
  | none =>
    rw [Store.toggleComplete, hfind] at h
    cases h
  | some t0 =>
    rw [Store.toggleComplete, hfind] at h
    injection h with h1
    injection h1 with h2 h3
    subst h2
    subst h3
    exact ⟨t0, rfl, rfl, rfl, rfl⟩

lemma delete_ok {s : Store} {owner : String} {id : Nat} {s' : Store}
    (h : s.delete owner id = Except.ok s') :
    s'.tasks = s.tasks.filter
      (fun u => !(u.id == id && u.owner_id == owner)) ∧
    s'.nextId = s.nextId := by
  cases hfind : s.findTask owner id with
  | none =>
    rw [Store.delete, hfind] at h
    cases h
  | some t0 =>
    rw [Store.delete, hfind] at h
    injection h with h1
    subst h1
    exact ⟨rfl, rfl⟩

end Todo

namespace Todo

lemma applyReq_tasks_cases {s : Store} {owner : String} {r : Req} {now : Nat}
    {u : Task} (hu : u ∈ (s.applyReq owner r now).tasks) :
    u ∈ s.tasks ∨
    (∃ v ∈ s.tasks, u.id = v.id ∧ u.created_at = v.created_at ∧
      u.updated_at = now) ∨
    (u.id < (s.applyReq owner r now).nextId ∧ u.created_at = now ∧
      u.updated_at = now) := by
  cases r with
  | create body =>
    cases hres : s.create owner body now with
    | error e =>
      simp only [Store.applyReq, hres] at hu
      exact Or.inl hu
    | ok p =>
      obtain ⟨t, s'⟩ := p
      obtain ⟨-, ht, hts, hni⟩ := create_ok hres
      simp only [Store.applyReq, hres] at hu ⊢
      rw [hts] at hu
      rw [hni]
      rcases List.mem_append.mp hu with h1 | h1
      · exact Or.inl h1
      · rcases List.mem_singleton.mp h1 with rfl
        subst ht
        exact Or.inr (Or.inr ⟨Nat.lt_succ_self _, rfl, rfl⟩)
  | update id f =>
    cases hres : s.update owner id f now with
    | error e =>
      simp only [Store.applyReq, hres] at hu
      exact Or.inl hu
    | ok p =>
      obtain ⟨t', s'⟩ := p
      obtain ⟨t0, hfind, ht', hts, -⟩ := update_ok hres
      simp only [Store.applyReq, hres] at hu
      rw [hts] at hu
      rcases List.mem_map.mp hu with ⟨v, hv, hvu⟩
      by_cases hp : (v.id == id && v.owner_id == owner) = true
      · rw [if_pos hp] at hvu
        subst hvu
        subst ht'
        exact Or.inr (Or.inl ⟨t0, (findTask_some hfind).1, rfl, rfl, rfl⟩)
      · rw [if_neg hp] at hvu
        subst hvu
        exact Or.inl hv
  | del id =>
    cases hres : s.delete owner id with
    | error e =>
      simp only [Store.applyReq, hres] at hu
      exact Or.inl hu
    | ok s' =>
      obtain ⟨hts, -⟩ := delete_ok hres
      simp only [Store.applyReq, hres] at hu
      rw [hts] at hu
      exact Or.inl (List.mem_of_mem_filter hu)
  | toggle id =>
    cases hres : s.toggleComplete owner id now with
    | error e =>
      simp only [Store.applyReq, hres] at hu
      exact Or.inl hu
    | ok p =>
      obtain ⟨t', s'⟩ := p
      obtain ⟨t0, hfind, ht', hts, -⟩ := toggle_ok hres
      simp only [Store.applyReq, hres] at hu
      rw [hts] at hu
      rcases List.mem_map.mp hu with ⟨v, hv, hvu⟩
      by_cases hp : (v.id == id && v.owner_id == owner) = true
      · rw [if_pos hp] at hvu
        subst hvu
        subst ht'
        exact Or.inr (Or.inl ⟨t0, (findTask_some hfind).1, rfl, rfl, rfl⟩)
      · rw [if_neg hp] at hvu
        subst hvu
        exact Or.inl hv

lemma applyReq_nextId_le (s : Store) (owner : String) (r : Req) (now : Nat) :
    s.nextId ≤ (s.applyReq owner r now).nextId := by
  cases r with
  | create body =>
    cases hres : s.create owner body now with
    | error e =>
      simp only [Store.applyReq, hres]
      exact le_rfl
    | ok p =>
      obtain ⟨t, s'⟩ := p
      obtain ⟨-, -, -, hni⟩ := create_ok hres
      simp only [Store.applyReq, hres]
      rw [hni]
      exact Nat.le_succ _
  | update id f =>
    cases hres : s.update owner id f now with
    | error e =>
      simp only [Store.applyReq, hres]
      exact le_rfl
    | ok p =>
      obtain ⟨t', s'⟩ := p
      obtain ⟨t0, -, -, -, hni⟩ := update_ok hres
      simp only [Store.applyReq, hres]
      rw [hni]
  | del id =>
    cases hres : s.delete owner id with
    | error e =>
      simp only [Store.applyReq, hres]
      exact le_rfl
    | ok s' =>
      obtain ⟨-, hni⟩ := delete_ok hres
      simp only [Store.applyReq, hres]
      rw [hni]
  | toggle id =>
    cases hres : s.toggleComplete owner id now with
    | error e =>
      simp only [Store.applyReq, hres]
      exact le_rfl
    | ok p =>
      obtain ⟨t', s'⟩ := p
      obtain ⟨t0, -, -, -, hni⟩ := toggle_ok hres
      simp only [Store.applyReq, hres]
      rw [hni]

lemma storeInv_empty (tm : Nat) : StoreInv Store.empty tm := by
  constructor <;> intro t ht <;> simp [Store.empty] at ht

lemma storeInv_applyReq {s : Store} {tm now : Nat} (owner : String) (r : Req)
    (h : StoreInv s tm) (hle : tm ≤ now) :
    StoreInv (s.applyReq owner r now) now := by
  constructor
  · intro u hu
    rcases applyReq_tasks_cases hu with h1 | ⟨v, hv, hid, hc, hup⟩ | ⟨-, hc, hup⟩
    · exact ⟨(h.1 u h1).1, le_trans (h.1 u h1).2 hle⟩
    · refine ⟨?_, le_of_eq hup⟩
      rw [hc, hup]
      exact le_trans (h.1 v hv).1 (le_trans (h.1 v hv).2 hle)
    · rw [hc, hup]
      exact ⟨le_refl now, le_refl now⟩
  · intro u hu
    rcases applyReq_tasks_cases hu with h1 | ⟨v, hv, hid, -, -⟩ | ⟨hid, -, -⟩
    · exact lt_of_lt_of_le (h.2 u h1) (applyReq_nextId_le s owner r now)
    · rw [hid]
      exact lt_of_lt_of_le (h.2 v hv) (applyReq_nextId_le s owner r now)
    · exact hid

lemma reachable_storeInv {s : Store} {tm : Nat} (h : Reachable s tm) :
    StoreInv s tm := by
  induction h with
  | init => exact storeInv_empty 0
  | step owner r hr hle ih => exact storeInv_applyReq owner r ih hle

end Todo

namespace Todo

lemma find?_map_replace {α : Type} (p : α → Bool) (t' : α) (hp : p t' = true) :
    ∀ (l : List α) (t0 : α), l.find? p = some t0 →
      (l.map (fun u => if p u then t' else u)).find? p = some t' := by
  intro l
  induction l with
  | nil =>
    intro t0 h
    simp at h
  | cons a l ih =>
    intro t0 h
    by_cases ha : p a = true
    · rw [List.map_cons, if_pos ha]
      exact List.find?_cons_of_pos _ hp
    · rw [List.find?_cons_of_neg _ ha] at h
      rw [List.map_cons, if_neg ha, List.find?_cons_of_neg _ ha]
      exact ih t0 h

lemma validTitle_iff (title : String) :
    validTitle title = true ↔
      (title.isEmpty = false ∧ title.length ≤ titleMaxLen) := by
  simp [validTitle]

/-- C4: `create` fails with `ValidationError` exactly when the title is empty
or longer than the configured maximum; the client-supplied owner field in the
body never influences the result; on success the task carries the verified
owner, `is_completed = false`, both timestamps equal to the request time, the
requested title and description, and the store's fresh-id counter value,
which in any reachable store differs from every existing task's id. -/
theorem C4_create_contract (s : Store) (owner : String) (body : CreateBody)
    (now : Nat) :
    (s.create owner body now = Except.error ApiError.ValidationError ↔
      (body.title.isEmpty = true ∨ titleMaxLen < body.title.length)) ∧
    (∀ bo : Option String,
      s.create owner { body with body_owner_id := bo } now =
        s.create owner body now) ∧
    (∀ t s', s.create owner body now = Except.ok (t, s') →
      t.owner_id = owner ∧ t.is_completed = false ∧ t.created_at = now ∧
      t.updated_at = now ∧ t.title = body.title ∧
      t.description = body.description ∧ t.id = s.nextId) ∧
    (∀ tm, Reachable s tm → ∀ t s',
      s.create owner body now = Except.ok (t, s') →
      ∀ u ∈ s.tasks, u.id ≠ t.id) := by
  refine ⟨?_, ?_, ?_, ?_⟩
  · constructor
    · intro h
      by_cases hv : validTitle body.title = true
      · rw [Store.create, if_pos hv] at h
        cases h
      · by_cases he : body.title.isEmpty = true
        · exact Or.inl he
        · right
          by_contra hlen
          exact hv ((validTitle_iff body.title).mpr
            ⟨Bool.eq_false_iff.mpr he, Nat.le_of_not_lt hlen⟩)
    · intro h
      have hv : ¬ validTitle body.title = true := by
        intro hv
        rcases (validTitle_iff body.title).mp hv with ⟨he, hl⟩
        rcases h with h | h
        · rw [h] at he
          cases he
        · exact absurd hl (Nat.not_le.mpr h)
      rw [Store.create, if_neg hv]
  · intro bo
    rfl
  · intro t s' h
    obtain ⟨-, ht, -, -⟩ := create_ok h
    subst ht
    exact ⟨rfl, rfl, rfl, rfl, rfl, rfl, rfl⟩
  · intro tm hreach t s' h u hu
    obtain ⟨-, ht, -, -⟩ := create_ok h
    subst ht
    exact Nat.ne_of_lt ((reachable_storeInv hreach).2 u hu)

lemma reachable_storeA : Reachable storeA 1 := by
  have h : Store.empty.applyReq "A" (Req.create { title := "Buy milk" }) 1 =
      storeA := by decide
  have h0 := Reachable.step "A" (Req.create { title := "Buy milk" })
    Reachable.init (Nat.zero_le 1)
  rwa [h] at h0

/-- C4 witness: an empty title is rejected, and the id of the task created
into the concrete reachable store (fresh id 1) differs from the id of the
task already present. -/
theorem C4_create_contract_witness :
    Store.empty.create "A" { title := "" } 3 =
      Except.error ApiError.ValidationError ∧
    taskA.id ≠ (1 : Nat) := by
  constructor
  · exact (C4_create_contract Store.empty "A" { title := "" } 3).1.mpr
      (Or.inl (by decide))
  · have hok : storeA.create "B" { title := "x" } 5 =
        Except.ok (taskB, storeAB) := by rfl
    exact (C4_create_contract storeA "B" { title := "x" } 5).2.2.2 1
      reachable_storeA _ _ hok taskA (by decide)

end Todo

namespace Todo

/-- C5: a successful partial update refreshes `updated_at` and leaves `id`,
`owner_id` and `created_at` untouched; a field absent from the request body
keeps its stored value and a supplied title is written verbatim, so a
title-only update changes exactly `title` and `updated_at`; rows with a
different id survive the update unchanged. -/
theorem C5_partial_update (s : Store) (owner : String) (id : Nat)
    (f : UpdateFields) (now : Nat) (t' : Task) (s' : Store)
    (h : s.update owner id f now = Except.ok (t', s')) :
    ∃ t0, s.findTask owner id = some t0 ∧
      t'.updated_at = now ∧
      t'.id = t0.id ∧
      t'.owner_id = t0.owner_id ∧
      t'.created_at = t0.created_at ∧
      (f.title = none → t'.title = t0.title) ∧
      (∀ x, f.title = some x → t'.title = x) ∧
      (f.description = none → t'.description = t0.description) ∧
      (f.is_completed = none → t'.is_completed = t0.is_completed) ∧
      (∀ u ∈ s.tasks, u.id ≠ id → u ∈ s'.tasks) := by
  obtain ⟨t0, hfind, ht', hts, -⟩ := update_ok h
  subst ht'
  refine ⟨t0, hfind, rfl, rfl, rfl, rfl, ?_, ?_, ?_, ?_, ?_⟩
  · intro hnone
    simp [applyFields, hnone]
  · intro x hx
    simp [applyFields, hx]
  · intro hnone
    simp [applyFields, hnone]
  · intro hnone
    simp [applyFields, hnone]
  · intro u hu hne
    rw [hts]
    refine List.mem_map.mpr ⟨u, hu, ?_⟩
    rw [if_neg]
    simp [hne]

/-- C5 witness: the concrete title-only update of `taskA` keeps the
description and completion flag and refreshes `updated_at` to 7. -/
theorem C5_partial_update_witness :
    taskAUpdated.updated_at = 7 ∧
    taskAUpdated.description = taskA.description ∧
    taskAUpdated.is_completed = taskA.is_completed := by
  obtain ⟨t0, hfind, hup, -, -, -, -, hsome, hdesc, hcomp, -⟩ :=
    C5_partial_update storeA "A" 0 { title := some "x" } 7
      taskAUpdated storeAUpdated (by rfl)
  have ht0 : t0 = taskA := by
    have hA : storeA.findTask "A" 0 = some taskA := by decide
    rw [hA] at hfind
    exact (Option.some.inj hfind).symm
  subst ht0
  exact ⟨hup, hdesc rfl, hcomp rfl⟩

/-- C6: if a task is present for its owner, a toggle-complete call succeeds
and flips `is_completed`; the toggled task is found again by the same lookup,
a second toggle also succeeds, and any second toggle returns `is_completed`
to its original value, both in the returned task and in the stored row. -/
theorem C6_toggle_pair (s : Store) (owner : String) (id : Nat) (n2 : Nat)
    (t0 : Task) (h : s.findTask owner id = some t0) (n1 : Nat)
    (t1 : Task) (s1 : Store)
    (h1 : s.toggleComplete owner id n1 = Except.ok (t1, s1)) :
    t1.is_completed = !t0.is_completed ∧
    s1.findTask owner id = some t1 ∧
    (∃ t2 s2, s1.toggleComplete owner id n2 = Except.ok (t2, s2)) ∧
    (∀ t2 s2, s1.toggleComplete owner id n2 = Except.ok (t2, s2) →
      t2.is_completed = t0.is_completed ∧ s2.findTask owner id = some t2) := by
  obtain ⟨hmem, hid0, hown0⟩ := findTask_some h
  obtain ⟨t0', hfind', ht1, hts1, -⟩ := toggle_ok h1
  rw [h] at hfind'
  obtain rfl : t0 = t0' := Option.some.inj hfind'
  have hfind0 : s.tasks.find?
      (fun u : Task => u.id == id && u.owner_id == owner) = some t0 := h
  have hflip : t1.is_completed = !t0.is_completed := by
    rw [ht1]
  have hp1 : (t1.id == id && t1.owner_id == owner) = true := by
    rw [ht1]
    simp [hid0, hown0]
  have hfind1 : s1.findTask owner id = some t1 := by
    rw [Store.findTask, hts1]
    exact find?_map_replace
      (fun u : Task => u.id == id && u.owner_id == owner) t1 hp1
      s.tasks t0 hfind0
  have hfind1u : s1.tasks.find?
      (fun u : Task => u.id == id && u.owner_id == owner) = some t1 := hfind1
  refine ⟨hflip, hfind1, ?_, ?_⟩
  · rw [Store.toggleComplete, hfind1]
    exact ⟨_, _, rfl⟩
  · intro t2 s2 h2
    obtain ⟨t1', hfind1', ht2, hts2, -⟩ := toggle_ok h2
    rw [hfind1] at hfind1'
    obtain rfl : t1 = t1' := Option.some.inj hfind1'
    constructor
    · rw [ht2]
      show (!t1.is_completed) = t0.is_completed
      rw [hflip, Bool.not_not]
    · have hp2 : (t2.id == id && t2.owner_id == owner) = true := by
        rw [ht2]
        simp [ht1, hid0, hown0]
      rw [Store.findTask, hts2]
      exact find?_map_replace
        (fun u : Task => u.id == id && u.owner_id == owner) t2 hp2
        s1.tasks t1 hfind1u

/-- C6 witness: toggling `taskA` twice (times 2 then 3) flips the flag to
`true` and back to its original `false`, also in the stored row. -/
theorem C6_toggle_pair_witness :
    taskAToggled.is_completed = !taskA.is_completed ∧
    storeAToggled.findTask "A" 0 = some taskAToggled ∧
    taskAToggled2.is_completed = taskA.is_completed ∧
    storeAToggled2.findTask "A" 0 = some taskAToggled2 := by
  have h := C6_toggle_pair storeA "A" 0 3 taskA (by decide) 2
    taskAToggled storeAToggled (by rfl)
  have h2 := h.2.2.2 taskAToggled2 storeAToggled2 (by rfl)
  exact ⟨h.1, h.2.1, h2.1, h2.2⟩

/-- C7: in every reachable store state every task satisfies
`created_at ≤ updated_at`; moreover one request step either preserves a
task's `id` and `created_at` (mutations never touch `created_at`) or yields a
freshly created task whose two timestamps both equal the request time. -/
theorem C7_timestamp_invariant (s : Store) (tm : Nat) (h : Reachable s tm) :
    (∀ t ∈ s.tasks, t.created_at ≤ t.updated_at) ∧
    (∀ (owner : String) (r : Req) (now : Nat) (u : Task),
      u ∈ (s.applyReq owner r now).tasks →
      (∃ v ∈ s.tasks, u.id = v.id ∧ u.created_at = v.created_at) ∨
      (u.created_at = now ∧ u.updated_at = now)) := by
  constructor
  · intro t ht
    exact ((reachable_storeInv h).1 t ht).1
  · intro owner r now u hu
    rcases applyReq_tasks_cases hu with h1 | ⟨v, hv, hid, hc, -⟩ | ⟨-, hc, hup⟩
    · exact Or.inl ⟨u, h1, rfl, rfl⟩
    · exact Or.inl ⟨v, hv, hid, hc⟩
    · exact Or.inr ⟨hc, hup⟩

/-- C7 witness: in the concrete reachable store, the task satisfies the
timestamp inequality. -/
theorem C7_timestamp_invariant_witness :
    taskA.created_at ≤ taskA.updated_at :=
  (C7_timestamp_invariant storeA 1 reachable_storeA).1 taskA (by decide)

end Todo
